import Mathlib

/-!
Verification of the playlist scheduler, compositor and interaction logic of
`src/tools/aloadimage/aloadimage.c` (arcan's CLI image viewer).

The scheduler state (`struct draw_state`), the per-slot state
(`struct img_state`) and the operations `try_dispatch`, `poll_pl`,
`set_playlist_pos`, `step_next`, `step_prev` and the `TARGET_COMMAND_STEPFRAME`
branch of `dispatch_event` are embedded as pure Lean functions below, with the
out-of-process decode worker (`imgload_spawn` / `imgload_poll` /
`imgload_reset`, whose implementation lives in `imgload.c`, outside this tree)
modelled from the specification's worker contract.  Nondeterminism of the
worker pool (did a worker finish? could a process be created?) is made explicit
through oracle parameters.
-/

set_option autoImplicit false

namespace Aloadimage

/-- Scheduler-side view of the worker's shared output buffer (`struct
img_data`): the scheduler code in aloadimage.c consults only the `ready`
flag of the buffer (the pixel contents are the compositor's business and are
modelled separately for `blit`). -/
structure WorkerOut where
  ready : Bool
deriving DecidableEq

/-- One playlist slot, `struct img_state` as used by the scheduler:
`is_stdin` marks the shared-input-stream source, `out` is the attached shared
output buffer (NULL, i.e. `none`, until a worker has been spawned), `proc` is
the outstanding worker process handle (true while a worker exists), and `life`
is the liveness marker: positive = timeout ticks remaining, 0 = idle,
-1 = timed out / permanently failed. -/
structure ImgState where
  is_stdin : Bool
  out : Option WorkerOut
  proc : Bool
  life : Int
deriving DecidableEq

instance : Inhabited ImgState := ⟨⟨false, none, false, 0⟩⟩

/-- `struct draw_state`, restricted to the fields read or written by the
scheduler and stepping logic.  Fields of the C struct that only concern the
display connection and the compositor (`con`, `pad_col`, `out_w`, `out_h`,
`aspect_ratio`, `source_size`, `non_interactive`, `loaded`, `wnd_prev`,
`wnd_next`) do not influence the scheduler operations and are omitted here;
the compositor-relevant ones reappear in `BlitCfg` below.  `cur` (in C a
pointer `&playlist[pl_ind]` or NULL) is modelled as an optional index. -/
structure DrawState where
  stdin_pending : Bool
  playlist : List ImgState
  cur : Option Nat
  pl_ind : Nat
  pl_size : Nat
  timeout : Int
  wnd_lim : Int
  wnd_pending : Int
  step_timer : Int
  init_timer : Int
  loop : Bool
deriving DecidableEq

/-- `ds->playlist[i]` (reads of slots are always in range in the C code;
out-of-range reads yield the all-zero slot, matching the zero-initialised
`struct img_state`). -/
def getSlot (ds : DrawState) (i : Nat) : ImgState :=
  ds.playlist.getD i default

/-- `src->ready` for a possibly-NULL buffer pointer.  In the C code the only
place this is read through a possibly-NULL `out` is the second disjunct of the
`try_dispatch` guard; there `out = NULL` can only occur together with
`proc = 0` (a worker attaches the buffer when spawned and it is never detached
while the slot is idle and dispatchable), so the disjunct evaluates to false
exactly as this total version does. -/
def outReady : Option WorkerOut → Bool
  | none => false
  | some b => b.ready

/-- Body of the `poll_pl` sweep for slot `i` (aloadimage.c:157-174).
`imgload_poll` is modelled from the spec: "poll(slot) -> bool (true when
output attached, ready or broken)" — the oracle answer `some rdy` means the
worker has finished with verdict `rdy` (ready for a good decode, not ready
for a broken one); on completion the worker process is reaped
(outstanding-worker handle absent, §3) and the verdict is attached to the
output buffer.  `none` means the worker is still running.  On completion the
C body clears `stdin_pending` if the slot is the stdin slot, zeroes `life`
and decrements `wnd_pending`.  Otherwise, when ticking (`step`) and a
timeout budget is armed (`life > 0`), the budget is aged; a budget that hits
zero without a ready buffer force-kills the worker (`imgload_reset`,
modelled from the spec: "reset(slot) (kill/cleanup, idempotent)" — the
worker handle goes away; the attached buffer stays owned by the slot, §3)
and marks the slot permanently failed (`life = -1`). -/
def poll_slot (res : Option Bool) (step : Bool) (ds : DrawState) (i : Nat) :
    DrawState :=
  let s := getSlot ds i
  if s.out.isSome && s.proc then
    match res with
    | some rdy =>
      { ds with
        playlist := ds.playlist.set i
          { s with proc := false, out := some ⟨rdy⟩, life := 0 }
        stdin_pending := if s.is_stdin then false else ds.stdin_pending
        wnd_pending := ds.wnd_pending - 1 }
    | none =>
      if step && decide (0 < s.life) then
        if s.life - 1 = 0 && !(outReady s.out) then
          { ds with playlist := ds.playlist.set i { s with proc := false, life := -1 } }
        else
          { ds with playlist := ds.playlist.set i { s with life := s.life - 1 } }
      else ds
  else ds

/-- The `poll_pl` for-loop from index `i`, with `n` iterations of fuel
(`poll_pl` supplies `pl_size`, which the loop can never exceed since `i`
increases by one per iteration).  The C loop condition is
`i < ds->pl_size && ds->wnd_pending`. -/
def poll_pl_from (po : Nat → Option Bool) (step : Bool) :
    DrawState → Nat → Nat → DrawState
  | ds, _, 0 => ds
  | ds, i, n + 1 =>
    if i < ds.pl_size ∧ ds.wnd_pending ≠ 0 then
      poll_pl_from po step (poll_slot (po i) step ds i) (i + 1) n
    else ds

/-- `poll_pl(ds, step)` (aloadimage.c:153-176): sweep all slots, reaping
finished workers and (when `step` is set) aging/timing out the rest.  The
oracle `po i` answers whether slot `i`'s worker has finished. -/
def poll_pl (po : Nat → Option Bool) (step : Bool) (ds : DrawState) : DrawState :=
  poll_pl_from po step ds 0 ds.pl_size

/-- `try_dispatch(ds, ind)` (aloadimage.c:183-203).  The guard is the literal
C condition; `imgload_spawn` is modelled from the spec ("spawn(slot) -> bool
(false if resources unavailable)", §6, and "spawns a decode worker for `slot`
iff the slot has no outstanding worker", §4.1): it fails when the resource
oracle `ok` is false or a worker is already outstanding on the slot, and on
success creates the worker and attaches the (not yet ready) shared output
buffer.  On success the C code sets `stdin_pending` for the stdin slot,
increments `wnd_pending` and arms the slot's timeout budget. -/
def try_dispatch (ok : Bool) (ds : DrawState) (ind : Nat) : DrawState × Bool :=
  let s := getSlot ds ind
  if (s.out.isNone && decide (0 ≤ s.life)) || (!(outReady s.out) && s.proc) then
    if s.is_stdin && ds.stdin_pending then (ds, false)
    else if ok && !s.proc then
      ({ ds with
          playlist := ds.playlist.set ind
            { s with proc := true, out := some ⟨false⟩, life := ds.timeout }
          stdin_pending := if s.is_stdin then true else ds.stdin_pending
          wnd_pending := ds.wnd_pending + 1 }, true)
    else (ds, false)
  else (ds, false)

/-- The do/while forward-fill loop of `set_playlist_pos`
(aloadimage.c:225-229), with fuel `n` (the caller passes `pl_size`; the C
loop runs at most `pl_size` bodies because the cursor `i` steps through the
cycle and the condition requires `i != ds->pl_ind`).  Condition:
`ds->playlist[ds->pl_ind].out && ds->wnd_pending < ds->wnd_lim
 && i != ds->pl_ind`. -/
def fill_loop (oks : Nat → Bool) : DrawState → Nat → Nat → DrawState
  | ds, _, 0 => ds
  | ds, i, n + 1 =>
    let ds' := (try_dispatch (oks i) ds i).1
    let i' := (i + 1) % ds'.pl_size
    if (getSlot ds' ds'.pl_ind).out.isSome ∧ ds'.wnd_pending < ds'.wnd_lim
        ∧ i' ≠ ds'.pl_ind then
      fill_loop oks ds' i' n
    else ds'

/-- `set_playlist_pos(ds, i)` (aloadimage.c:205-232): reap with a non-ticking
poll, range-check the requested index (negative wraps to the last slot;
past-the-end wraps to 0 only when looping, otherwise NULL is returned and
`pl_ind` is left untouched), then set the active index and forward-fill
worker slots.  Returns the new state and the returned slot pointer
(`some` new `pl_ind`, or `none` for the C NULL). -/
def set_playlist_pos (po : Nat → Option Bool) (oks : Nat → Bool)
    (ds : DrawState) (i : Int) : DrawState × Option Nat :=
  let ds1 := poll_pl po false ds
  let i1 : Int := if i < 0 then (ds1.pl_size : Int) - 1 else i
  let i2 : Option Int :=
    if (ds1.pl_size : Int) ≤ i1 then (if ds1.loop then some 0 else none)
    else some i1
  match i2 with
  | none => (ds1, none)
  | some j =>
    let ds2 := { ds1 with pl_ind := j.toNat }
    let ds3 := fill_loop oks ds2 j.toNat ds2.pl_size
    (ds3, some ds3.pl_ind)

/-- `step_next(state)` (aloadimage.c:280-284):
`state->cur = set_playlist_pos(state, state->pl_ind + 1)`.  (The C function
always returns true, i.e. "needs redraw"; only the state effect matters
here.) -/
def step_next (po : Nat → Option Bool) (oks : Nat → Bool) (ds : DrawState) :
    DrawState :=
  let r := set_playlist_pos po oks ds ((ds.pl_ind : Int) + 1)
  { r.1 with cur := r.2 }

/-- `step_prev(state)` (aloadimage.c:286-290). -/
def step_prev (po : Nat → Option Bool) (oks : Nat → Bool) (ds : DrawState) :
    DrawState :=
  let r := set_playlist_pos po oks ds ((ds.pl_ind : Int) - 1)
  { r.1 with cur := r.2 }

/-- The `TARGET_COMMAND_STEPFRAME` branch of `dispatch_event`
(aloadimage.c:406-415), embedded exactly as written: a clock event carrying
the scheduler tag (`ioevs[1].iv == 0xfeed`, here `tag`) runs a ticking poll;
then the auto-advance logic tests `ds->step_timer > 0` and, nested inside it,
`ds->step_timer == 0` before advancing — the inner test can never hold under
the outer one, and nothing ever decrements `step_timer`. -/
def stepframe (po : Nat → Option Bool) (oks : Nat → Bool) (tag : Bool)
    (ds : DrawState) : DrawState :=
  let ds1 := if tag then poll_pl po true ds else ds
  if 0 < ds1.step_timer then
    if ds1.step_timer = 0 then
      let ds2 := { ds1 with step_timer := ds1.init_timer }
      let r := set_playlist_pos po oks ds2 ((ds2.pl_ind : Int) + 1)
      { r.1 with cur := r.2 }
    else ds1
  else ds1

/-- Fresh slot for one playlist entry, as zero-initialised in `main`
(aloadimage.c:519-525): only `fname`/`is_stdin` are set. -/
def init_slot (stdin : Bool) : ImgState :=
  { is_stdin := stdin, out := none, proc := false, life := 0 }

/-- `struct draw_state` as `main` builds it before the first
`set_playlist_pos` call: playlist from the argument list (`files i` = is the
i-th entry the shared stdin stream), configured window limit, worker timeout,
auto-step period and loop flag (aloadimage.c:487-527). -/
def mkState (files : List Bool) (lim tmo itimer : Int) (lp : Bool) : DrawState :=
  { stdin_pending := false
    playlist := files.map init_slot
    cur := none
    pl_ind := 0
    pl_size := files.length
    timeout := tmo
    wnd_lim := lim
    wnd_pending := 0
    step_timer := itimer
    init_timer := itimer
    loop := lp }

/-- The session state right after `ds.cur = set_playlist_pos(&ds, 0)` in
`main` (aloadimage.c:530). -/
def init_state (po : Nat → Option Bool) (oks : Nat → Bool) (files : List Bool)
    (lim tmo itimer : Int) (lp : Bool) : DrawState :=
  let r := set_playlist_pos po oks (mkState files lim tmo itimer lp) 0
  { r.1 with cur := r.2 }

/-- The guard of the interactive loop, `while (ds.cur && cont.addr)`
(aloadimage.c:546), on the scheduler side: the loop continues only while the
current-slot reference is non-NULL. -/
def loop_continues (ds : DrawState) : Bool :=
  ds.cur.isSome

/-- One scheduler-visible operation of the event loop: a poll sweep (ticking
or not), an advance in either direction, or a host step-tick. -/
inductive Step : DrawState → DrawState → Prop
  | poll (po : Nat → Option Bool) (st : Bool) (ds : DrawState) :
      Step ds (poll_pl po st ds)
  | next (po : Nat → Option Bool) (oks : Nat → Bool) (ds : DrawState) :
      Step ds (step_next po oks ds)
  | prev (po : Nat → Option Bool) (oks : Nat → Bool) (ds : DrawState) :
      Step ds (step_prev po oks ds)
  | tick (po : Nat → Option Bool) (oks : Nat → Bool) (tag : Bool)
      (ds : DrawState) : Step ds (stepframe po oks tag ds)

/-- Reflexive-transitive closure of `Step`: any sequence of
dispatch/poll/advance operations. -/
inductive Steps : DrawState → DrawState → Prop
  | refl (ds : DrawState) : Steps ds ds
  | tail {a b c : DrawState} : Steps a b → Step b c → Steps a c

/-- Session states reachable from program start: `main` builds the state from
a non-empty playlist with non-negative configured timeout (both `-T` and `-t`
values come from `strtoul`), dispatches via `set_playlist_pos(&ds, 0)`, and
then runs dispatch/poll/advance operations. -/
inductive Reach : DrawState → Prop
  | init (po : Nat → Option Bool) (oks : Nat → Bool) (files : List Bool)
      (lim tmo itimer : Int) (lp : Bool)
      (hne : files ≠ []) (htmo : 0 ≤ tmo) :
      Reach (init_state po oks files lim tmo itimer lp)
  | step {a b : DrawState} : Reach a → Step a b → Reach b

/-! ### Compositor (`blit`, aloadimage.c:56-117) -/

/-- Destination framebuffer view of `struct arcan_shmif_cont`: dimensions,
row pitch in pixels (`pitch`), row stride in bytes (`stride`), and the video
buffer as a map from linear pixel index to pixel value. -/
structure Fb where
  w : Nat
  h : Nat
  pitch : Nat
  stride : Nat
  vid : Nat → Nat

/-- `struct img_data` as the compositor sees it: decoded dimensions, crop
origin `x`/`y`, declared buffer length `buf_sz` in bytes, the byte buffer,
and the readiness flag. -/
structure ImgData where
  w : Nat
  h : Nat
  x : Nat
  y : Nat
  buf_sz : Nat
  buf : Nat → Nat
  ready : Bool

/-- The `draw_state` fields `blit` reads: pad color and configured output
dimensions. -/
structure BlitCfg where
  pad_col : Nat
  out_w : Nat
  out_h : Nat

/-- Result of one compositor pass: the destination video buffer after all
writes, whether `arcan_shmif_signal` (frame updated) was issued before
returning, and the list of byte offsets read from `src->buf`. -/
structure BlitRes where
  vid : Nat → Nat
  signaled : Bool
  reads : List Nat

/-- The external high-quality resampler (`stbir_resize_uint8`), §4.2 "a
quality image-resampling algorithm (external collaborator)".  Arguments mirror
the call site: source base byte offset, source sub-rectangle width/height,
source stride, destination drawn width/height, destination byte stride, and
the current destination buffer; it yields the written buffer and the byte
offsets it read from the source. -/
abbrev Resampler :=
  Nat → Nat → Nat → Nat → Nat → Nat → Nat → (Nat → Nat) → (Nat → Nat) × List Nat

/-- The pad-color fill of the absent/not-ready branch (aloadimage.c:61-63),
embedded loop for loop: note that the C source bounds the *column* loop by
`dst->h` (`for (int col = 0; col < dst->h; col++)`), not by `dst->w`. -/
def pad_fill_loop (dst : Fb) (pad : Nat) : Nat → Nat :=
  (List.range dst.h).foldl (fun v row =>
    (List.range dst.h).foldl (fun v col =>
      Function.update v (row * dst.pitch + col) pad) v) dst.vid

/-- Pixel value assembled from four consecutive source bytes (the `memcpy`
of the direct-copy path moves `src_stride = src->w * 4` bytes per row, i.e.
`src->w` whole pixels, into the pixel-addressed destination row). -/
def pixel_at (buf : Nat → Nat) (off : Nat) : Nat :=
  buf off + 256 * buf (off + 1) + 65536 * buf (off + 2) +
    16777216 * buf (off + 3)

/-- The direct-copy fast path (aloadimage.c:85-87): for each destination row,
copy one full source row (this branch requires `dst->w == src->w`,
`dst->h == src->h`). -/
def direct_copy (src : ImgData) (dst : Fb) : Nat → Nat :=
  (List.range dst.h).foldl (fun v row =>
    (List.range dst.w).foldl (fun v col =>
      Function.update v (row * dst.pitch + col)
        (pixel_at src.buf (row * (src.w * 4) + 4 * col))) v) dst.vid

/-- Source byte offsets read by the direct-copy `memcpy`s: bytes
`row * src_stride .. row * src_stride + src_stride - 1` for each copied
row. -/
def memcpy_reads (src_stride rows : Nat) : List Nat :=
  (List.range rows).flatMap fun row =>
    (List.range src_stride).map fun k => row * src_stride + k

/-- Trailing-column zero fill after a stretch-blit (aloadimage.c:102-106):
for every drawn row `y < dh`, columns `dw .. dst->w - 1` are set to 0. -/
def pad_cols (dst : Fb) (dw dh : Nat) (v : Nat → Nat) : Nat → Nat :=
  (List.range dh).foldl (fun v y =>
    (List.range (dst.w - dw)).foldl (fun v k =>
      Function.update v (y * dst.pitch + dw + k) 0) v) v

/-- Trailing-row pad-color fill after a stretch-blit (aloadimage.c:109-113):
rows `dh .. dst->h - 1` are filled with the pad color across the full
width. -/
def pad_rows (dst : Fb) (dh pad : Nat) (v : Nat → Nat) : Nat → Nat :=
  (List.range (dst.h - dh)).foldl (fun v j =>
    (List.range dst.w).foldl (fun v x =>
      Function.update v ((dh + j) * dst.pitch + x) pad) v) v

/-- `blit(dst, src, state)` (aloadimage.c:56-117), parameterised by the
external resampler `rs`.  Branches in source order: absent or not-ready
input → buggy pad fill + signal; drawn-size computation (the `dw` line
compares and selects against `state->out_h`, as in the source); corruption
guard `src->buf_sz != src->w * src->h * 4` → plain `return`, *without*
signalling; equal-dimensions/no-crop fast path → row copy, then signal;
otherwise stretch-blit plus column/row padding, then signal. -/
def blit (rs : Resampler) (dst : Fb) (src : Option ImgData) (st : BlitCfg) :
    BlitRes :=
  match src with
  | none => ⟨pad_fill_loop dst st.pad_col, true, []⟩
  | some s =>
    if s.ready = false then ⟨pad_fill_loop dst st.pad_col, true, []⟩
    else
      let dw := if st.out_w ≠ 0 then
          (if st.out_h < dst.w then st.out_h else dst.h) else dst.w
      let dh := if st.out_h ≠ 0 then
          (if st.out_h < dst.h then st.out_h else dst.h) else dst.h
      if s.buf_sz ≠ s.w * s.h * 4 then ⟨dst.vid, false, []⟩
      else
        let src_stride := s.w * 4
        if dst.w = s.w ∧ dst.h = s.h ∧ s.x = 0 ∧ s.y = 0 then
          ⟨direct_copy s dst, true, memcpy_reads src_stride dst.h⟩
        else
          let r := rs (s.y * src_stride + s.x) (s.w - s.x) (s.h - s.y)
            src_stride dw dh dst.stride dst.vid
          ⟨pad_rows dst dh st.pad_col (pad_cols dst dw dh r.1), true, r.2⟩

/-! ### Resize negotiation (`set_active`, aloadimage.c:262-273) -/

/-- Result of the halve-and-retry loop: final requested dimensions, number
of halvings performed, and number of `arcan_shmif_resize` attempts made. -/
structure ResizeOut where
  dw : Nat
  dh : Nat
  halvings : Nat
  attempts : Nat
deriving DecidableEq

/-- The halve-and-retry loop under source-size authority
(aloadimage.c:267-272):
`while (dh && dh && !arcan_shmif_resize(ds->con, dw, dh)){ dw >>= 1; dh >>= 1; }`
— the C condition tests `dh` twice (as written in the source; `dw` is never
tested), and `arcan_shmif_resize` is the external accept/reject oracle
`accept`. -/
def resize_negotiate (accept : Nat → Nat → Bool) (dw dh : Nat) : ResizeOut :=
  if h : dh ≠ 0 ∧ dh ≠ 0 ∧ accept dw dh = false then
    let r := resize_negotiate accept (dw >>> 1) (dh >>> 1)
    ⟨r.dw, r.dh, r.halvings + 1, r.attempts + 1⟩
  else
    ⟨dw, dh, 0, if dh = 0 then 0 else 1⟩
termination_by dh
decreasing_by
  simp only [Nat.shiftRight_one]
  exact Nat.div_lt_self (Nat.pos_of_ne_zero h.1) (by omega)

/-! ### Invariant predicates and auxiliary definitions -/

/-- A slot that has consumed (and not returned) one unit of `wnd_pending`:
either a worker is outstanding (`proc`), or the slot timed out (`life = -1`;
the timeout reap clears `proc` without decrementing `wnd_pending`). -/
def busyP (s : ImgState) : Bool :=
  s.proc || decide (s.life = -1)

/-- A slot with an outstanding worker bound to the shared input stream. -/
def stdinP (s : ImgState) : Bool :=
  s.proc && s.is_stdin

/-- The effect of one non-completing (`res = none`) `poll_pl` body on its own
slot: tick the timeout budget when `step` is set, possibly force-killing the
worker and marking the slot permanently failed. -/
def tick_slot (step : Bool) (s : ImgState) : ImgState :=
  if s.out.isSome && s.proc then
    if step && decide (0 < s.life) then
      if s.life - 1 = 0 && !(outReady s.out) then
        { s with proc := false, life := -1 }
      else { s with life := s.life - 1 }
    else s
  else s

/-- Configuration fields that no scheduler operation ever writes. -/
def CfgEq (a b : DrawState) : Prop :=
  b.pl_size = a.pl_size ∧ b.playlist.length = a.playlist.length ∧
  b.timeout = a.timeout ∧ b.wnd_lim = a.wnd_lim ∧ b.loop = a.loop ∧
  b.init_timer = a.init_timer

/-- Fields preserved by the inner scheduler primitives (`poll_slot`,
`try_dispatch`, the sweep and fill loops): configuration plus the step
timer, the current-slot reference and the active index. -/
def Pres (a b : DrawState) : Prop :=
  CfgEq a b ∧ b.step_timer = a.step_timer ∧ b.cur = a.cur ∧
  b.pl_ind = a.pl_ind

/-- Inductive invariant of the scheduler state, established at startup and
preserved by every dispatch/poll/advance operation. -/
structure Inv (ds : DrawState) : Prop where
  size_eq : ds.pl_size = ds.playlist.length
  size_pos : 0 < ds.pl_size
  tmo_nonneg : 0 ≤ ds.timeout
  pend_eq : ds.wnd_pending = (ds.playlist.countP busyP : Int)
  failed : ∀ s ∈ ds.playlist, s.life < 0 → s.proc = false
  stdin_one : ds.playlist.countP stdinP ≤ 1
  stdin_flag : ds.stdin_pending = false → ds.playlist.countP stdinP = 0

/-! ### Concrete states used by counterexamples and witnesses -/

/-- Poll oracle under which no worker ever finishes. -/
def po0 : Nat → Option Bool := fun _ => none

/-- Spawn oracle with resources always available. -/
def okAll : Nat → Bool := fun _ => true

/-- Spawn oracle with resources never available. -/
def okNone : Nat → Bool := fun _ => false

/-- Single-file session, looping disabled, nothing dispatched (spawn always
fails), active index 0 = last slot. -/
def exC1 : DrawState := init_state po0 okNone [false] 5 5 0 false

/-- Two-file session with prefetch window limit 1: startup dispatches
slot 0. -/
def exC2a : DrawState := init_state po0 okAll [false, false] 1 5 0 false

/-- ... after one NEXT while slot 0 is still decoding: the scheduler
dispatches slot 1 although the window (limit 1) is already full. -/
def exC2 : DrawState := step_next po0 okAll exC2a

/-- Single-file session with a one-tick worker timeout; startup dispatches
slot 0. -/
def exC8a : DrawState := init_state po0 okAll [false] 5 1 0 false

/-- ... after one ticking poll in which the worker did not finish: slot 0 is
timed out (`life = -1`). -/
def exC8 : DrawState := poll_pl po0 true exC8a

/-- Single-stdin-slot session: startup dispatches the stdin worker. -/
def exC9 : DrawState := init_state po0 okAll [true] 5 5 0 false

/-- Hand-built state for the timeout-accounting claim: one slot with an
outstanding worker one tick from its timeout, `wnd_pending = 1`. -/
def exC10 : DrawState :=
  { stdin_pending := false
    playlist := [{ is_stdin := false, out := some ⟨false⟩, proc := true, life := 1 }]
    cur := some 0
    pl_ind := 0
    pl_size := 1
    timeout := 1
    wnd_lim := 5
    wnd_pending := 1
    step_timer := 0
    init_timer := 0
    loop := false }

/-- Identity resampler (the resampler is irrelevant to the claims that use
these fixtures). -/
def rsId : Resampler := fun _ _ _ _ _ _ _ v => (v, [])

/-- 2×1 destination framebuffer, all zero. -/
def fbC4 : Fb := ⟨2, 1, 2, 8, fun _ => 0⟩

/-- 2×2 destination framebuffer, all zero. -/
def fbSq : Fb := ⟨2, 2, 2, 8, fun _ => 0⟩

/-- Compositor config: pad color 7, no configured output dimensions. -/
def cfgPad7 : BlitCfg := ⟨7, 0, 0⟩

/-- A ready 2×2 decoded buffer whose declared length 15 differs from
2·2·4 = 16: rejected by the corruption guard. -/
def srcCorrupt : ImgData := ⟨2, 2, 0, 0, 15, fun _ => 0, true⟩

end Aloadimage

namespace Aloadimage

/-! ## Generic list lemmas -/

theorem getD_set_self {α : Type} (l : List α) (i : Nat) (x d : α)
    (h : i < l.length) : (l.set i x).getD i d = x := by
  simp [List.getD_eq_getElem?_getD, List.getElem?_set, h]

theorem getD_set_ne {α : Type} (l : List α) {i j : Nat} (x d : α)
    (h : i ≠ j) : (l.set i x).getD j d = l.getD j d := by
  simp [List.getD_eq_getElem?_getD, List.getElem?_set, h]

theorem getD_mem {α : Type} {l : List α} {i : Nat} {d : α}
    (h : i < l.length) : l.getD i d ∈ l := by
  rw [List.getD_eq_getElem?_getD, List.getElem?_eq_getElem h]
  exact List.getElem_mem h

theorem countP_set_balance {α : Type} (p : α → Bool) (l : List α) (i : Nat)
    (x d : α) (h : i < l.length) :
    (l.set i x).countP p + (if p (l.getD i d) then 1 else 0)
      = l.countP p + (if p x then 1 else 0) := by
  induction l generalizing i with
  | nil => simp at h
  | cons a t ih =>
    cases i with
    | zero =>
      simp only [List.set_cons_zero, List.countP_cons, List.getD_cons_zero]
      split_ifs <;> omega
    | succ n =>
      simp only [List.set_cons_succ, List.countP_cons, List.getD_cons_succ]
      have := ih n (by simpa using h)
      omega

/-! ## Field preservation -/

theorem cfgEq_refl (a : DrawState) : CfgEq a a := by
  simp [CfgEq]

theorem cfgEq_trans {a b c : DrawState} (h1 : CfgEq a b) (h2 : CfgEq b c) :
    CfgEq a c := by
  obtain ⟨e1, e2, e3, e4, e5, e6⟩ := h1
  obtain ⟨f1, f2, f3, f4, f5, f6⟩ := h2
  exact ⟨f1.trans e1, f2.trans e2, f3.trans e3, f4.trans e4, f5.trans e5,
    f6.trans e6⟩

theorem pres_refl (a : DrawState) : Pres a a :=
  ⟨cfgEq_refl a, rfl, rfl, rfl⟩

theorem pres_trans {a b c : DrawState} (h1 : Pres a b) (h2 : Pres b c) :
    Pres a c :=
  ⟨cfgEq_trans h1.1 h2.1, h2.2.1.trans h1.2.1, h2.2.2.1.trans h1.2.2.1,
    h2.2.2.2.trans h1.2.2.2⟩

theorem poll_slot_pres (res : Option Bool) (st : Bool) (ds : DrawState)
    (i : Nat) : Pres ds (poll_slot res st ds i) := by
  unfold poll_slot
  cases res <;> dsimp only <;> split
  case none.isTrue =>
    split
    · split <;> exact ⟨by simp [CfgEq], rfl, rfl, rfl⟩
    · exact pres_refl ds
  case none.isFalse => exact pres_refl ds
  case some.isTrue => exact ⟨by simp [CfgEq], rfl, rfl, rfl⟩
  case some.isFalse => exact pres_refl ds

theorem try_dispatch_pres (ok : Bool) (ds : DrawState) (ind : Nat) :
    Pres ds (try_dispatch ok ds ind).1 := by
  unfold try_dispatch
  dsimp only
  split
  · split
    · exact pres_refl ds
    · split
      · exact ⟨by simp [CfgEq], rfl, rfl, rfl⟩
      · exact pres_refl ds
  · exact pres_refl ds

theorem poll_pl_from_pres (po : Nat → Option Bool) (st : Bool)
    (ds : DrawState) (i n : Nat) : Pres ds (poll_pl_from po st ds i n) := by
  induction n generalizing ds i with
  | zero => exact pres_refl ds
  | succ n ih =>
    unfold poll_pl_from
    split
    · exact pres_trans (poll_slot_pres (po i) st ds i) (ih _ _)
    · exact pres_refl ds

theorem poll_pl_pres (po : Nat → Option Bool) (st : Bool) (ds : DrawState) :
    Pres ds (poll_pl po st ds) :=
  poll_pl_from_pres po st ds 0 ds.pl_size

theorem fill_loop_pres (oks : Nat → Bool) (ds : DrawState) (i n : Nat) :
    Pres ds (fill_loop oks ds i n) := by
  induction n generalizing ds i with
  | zero => exact pres_refl ds
  | succ n ih =>
    unfold fill_loop
    dsimp only
    split
    · exact pres_trans (try_dispatch_pres (oks i) ds i) (ih _ _)
    · exact try_dispatch_pres (oks i) ds i

theorem set_playlist_pos_pres (po : Nat → Option Bool) (oks : Nat → Bool)
    (ds : DrawState) (i : Int) :
    CfgEq ds (set_playlist_pos po oks ds i).1 ∧
    (set_playlist_pos po oks ds i).1.step_timer = ds.step_timer ∧
    (set_playlist_pos po oks ds i).1.cur = ds.cur := by
  unfold set_playlist_pos
  dsimp only
  split
  case h_1 =>
    have h := poll_pl_pres po false ds
    exact ⟨h.1, h.2.1, h.2.2.1⟩
  case h_2 j heq =>
    have h1 := poll_pl_pres po false ds
    have h2 := fill_loop_pres oks
      { poll_pl po false ds with pl_ind := j.toNat } j.toNat
      (poll_pl po false ds).pl_size
    refine ⟨cfgEq_trans h1.1 (cfgEq_trans (by simp [CfgEq]) h2.1), ?_, ?_⟩
    · exact h2.2.1.trans h1.2.1
    · exact h2.2.2.1.trans h1.2.2.1

/-! ## Invariant preservation -/

theorem default_img : (default : ImgState) = ⟨false, none, false, 0⟩ := rfl

theorem lt_length_of_out {ds : DrawState} {i : Nat}
    (h : (getSlot ds i).out.isSome = true) : i < ds.playlist.length := by
  by_contra hc
  push_neg at hc
  rw [getSlot, List.getD_eq_default _ _ hc, default_img] at h
  simp at h

theorem inv_pl_ind {ds : DrawState} (k : Nat) (hv : Inv ds) :
    Inv { ds with pl_ind := k } :=
  ⟨hv.size_eq, hv.size_pos, hv.tmo_nonneg, hv.pend_eq, hv.failed,
    hv.stdin_one, hv.stdin_flag⟩

theorem inv_cur {ds : DrawState} (c : Option Nat) (hv : Inv ds) :
    Inv { ds with cur := c } :=
  ⟨hv.size_eq, hv.size_pos, hv.tmo_nonneg, hv.pend_eq, hv.failed,
    hv.stdin_one, hv.stdin_flag⟩

theorem try_dispatch_inv {ok : Bool} {ds : DrawState} {ind : Nat}
    (hv : Inv ds) (hi : ind < ds.playlist.length) :
    Inv (try_dispatch ok ds ind).1 := by
  unfold try_dispatch
  dsimp only
  split
  case isFalse => exact hv
  case isTrue hg =>
    split
    case isTrue => exact hv
    case isFalse hst =>
      split
      case isFalse => exact hv
      case isTrue hok =>
        simp only [Bool.and_eq_true, Bool.not_eq_true'] at hok
        obtain ⟨-, hproc⟩ := hok
        rw [hproc] at hg
        simp only [Bool.and_false, Bool.or_false, Bool.and_eq_true,
          Option.isNone_iff_eq_none, decide_eq_true_eq] at hg
        obtain ⟨hout, hlife⟩ := hg
        have hb := countP_set_balance busyP ds.playlist ind
          ⟨(getSlot ds ind).is_stdin, some ⟨false⟩, true, ds.timeout⟩
          default hi
        have hs := countP_set_balance stdinP ds.playlist ind
          ⟨(getSlot ds ind).is_stdin, some ⟨false⟩, true, ds.timeout⟩
          default hi
        rw [show ds.playlist.getD ind default = getSlot ds ind from rfl] at hb hs
        rw [if_neg (show ¬busyP (getSlot ds ind) = true by
              simp only [busyP, hproc, Bool.false_or, decide_eq_true_eq]
              omega),
            if_pos (show busyP ⟨(getSlot ds ind).is_stdin, some ⟨false⟩,
                true, ds.timeout⟩ = true by simp [busyP])] at hb
        rw [if_neg (show ¬stdinP (getSlot ds ind) = true by
              simp [stdinP, hproc])] at hs
        refine ⟨?_, ?_, ?_, ?_, ?_, ?_, ?_⟩
        · simpa [List.length_set] using hv.size_eq
        · exact hv.size_pos
        · exact hv.tmo_nonneg
        · have := hv.pend_eq
          dsimp only
          omega
        · intro t ht hlt
          rcases List.mem_or_eq_of_mem_set ht with h | h
          · exact hv.failed t h hlt
          · subst h
            dsimp only at hlt
            have := hv.tmo_nonneg
            omega
        · dsimp only
          by_cases hstd : (getSlot ds ind).is_stdin = true
          · rw [if_pos (show stdinP ⟨(getSlot ds ind).is_stdin,
                some ⟨false⟩, true, ds.timeout⟩ = true by
                  simp [stdinP, hstd])] at hs
            have hp0 : ds.stdin_pending = false := by
              cases hpd : ds.stdin_pending
              · rfl
              · exact absurd (by simp [hstd, hpd]) hst
            have := hv.stdin_flag hp0
            omega
          · rw [if_neg (show ¬stdinP ⟨(getSlot ds ind).is_stdin,
                some ⟨false⟩, true, ds.timeout⟩ = true by
                  simp only [stdinP, Bool.true_and]; exact hstd)] at hs
            have := hv.stdin_one
            omega
        · dsimp only
          intro hpend
          by_cases hstd : (getSlot ds ind).is_stdin = true
          · rw [if_pos hstd] at hpend
            exact absurd hpend (by simp)
          · rw [if_neg hstd] at hpend
            rw [if_neg (show ¬stdinP ⟨(getSlot ds ind).is_stdin,
                some ⟨false⟩, true, ds.timeout⟩ = true by
                  simp only [stdinP, Bool.true_and]; exact hstd)] at hs
            have := hv.stdin_flag hpend
            omega

theorem poll_slot_inv {res : Option Bool} {st : Bool} {ds : DrawState}
    {i : Nat} (hv : Inv ds) : Inv (poll_slot res st ds i) := by
  unfold poll_slot
  dsimp only
  split
  case isFalse => exact hv
  case isTrue hg =>
    simp only [Bool.and_eq_true] at hg
    obtain ⟨hout, hproc⟩ := hg
    have hi : i < ds.playlist.length := lt_length_of_out hout
    have hmem : getSlot ds i ∈ ds.playlist := getD_mem hi
    have hlife0 : ¬(getSlot ds i).life < 0 := by
      intro hlt
      exact absurd (hv.failed _ hmem hlt) (by simp [hproc])
    cases res with
    | some rdy =>
      have hb := countP_set_balance busyP ds.playlist i
        ⟨(getSlot ds i).is_stdin, some ⟨rdy⟩, false, 0⟩ default hi
      have hs := countP_set_balance stdinP ds.playlist i
        ⟨(getSlot ds i).is_stdin, some ⟨rdy⟩, false, 0⟩ default hi
      rw [show ds.playlist.getD i default = getSlot ds i from rfl] at hb hs
      rw [if_pos (show busyP (getSlot ds i) = true by simp [busyP, hproc]),
          if_neg (show ¬busyP ⟨(getSlot ds i).is_stdin, some ⟨rdy⟩, false, 0⟩
            = true by simp [busyP])] at hb
      rw [if_neg (show ¬stdinP ⟨(getSlot ds i).is_stdin, some ⟨rdy⟩, false, 0⟩
            = true by simp [stdinP])] at hs
      refine ⟨?_, ?_, ?_, ?_, ?_, ?_, ?_⟩
      · simpa [List.length_set] using hv.size_eq
      · exact hv.size_pos
      · exact hv.tmo_nonneg
      · have := hv.pend_eq
        dsimp only
        omega
      · intro t ht hlt
        rcases List.mem_or_eq_of_mem_set ht with h | h
        · exact hv.failed t h hlt
        · subst h
          dsimp only at hlt
          omega
      · dsimp only
        have := hv.stdin_one
        omega
      · dsimp only
        by_cases hstd : (getSlot ds i).is_stdin = true
        · rw [if_pos (show stdinP (getSlot ds i) = true by
              simp [stdinP, hproc, hstd])] at hs
          intro
          have := hv.stdin_one
          omega
        · rw [if_neg (show ¬stdinP (getSlot ds i) = true by
              simp only [stdinP, hproc, Bool.true_and]; exact hstd)] at hs
          rw [if_neg hstd]
          intro hpend
          have := hv.stdin_flag hpend
          omega
    | none =>
      dsimp only
      split
      next htick =>
        simp only [Bool.and_eq_true, decide_eq_true_eq] at htick
        obtain ⟨-, hpos⟩ := htick
        split
        next hz =>
          have hb := countP_set_balance busyP ds.playlist i
            ⟨(getSlot ds i).is_stdin, (getSlot ds i).out, false, -1⟩
            default hi
          have hs := countP_set_balance stdinP ds.playlist i
            ⟨(getSlot ds i).is_stdin, (getSlot ds i).out, false, -1⟩
            default hi
          rw [show ds.playlist.getD i default = getSlot ds i from rfl] at hb hs
          rw [if_pos (show busyP (getSlot ds i) = true by
                simp [busyP, hproc]),
              if_pos (show busyP ⟨(getSlot ds i).is_stdin, (getSlot ds i).out,
                false, -1⟩ = true by simp [busyP])] at hb
          rw [if_neg (show ¬stdinP ⟨(getSlot ds i).is_stdin,
                (getSlot ds i).out, false, -1⟩ = true by
              simp [stdinP])] at hs
          refine ⟨?_, ?_, ?_, ?_, ?_, ?_, ?_⟩
          · simpa [List.length_set] using hv.size_eq
          · exact hv.size_pos
          · exact hv.tmo_nonneg
          · have := hv.pend_eq
            dsimp only
            omega
          · intro t ht hlt
            rcases List.mem_or_eq_of_mem_set ht with h | h
            · exact hv.failed t h hlt
            · subst h
              rfl
          · have := hv.stdin_one
            dsimp only
            omega
          · dsimp only
            intro hpend
            have := hv.stdin_flag hpend
            omega
        next hz =>
          have hb := countP_set_balance busyP ds.playlist i
            ⟨(getSlot ds i).is_stdin, (getSlot ds i).out, (getSlot ds i).proc,
              (getSlot ds i).life - 1⟩ default hi
          have hs := countP_set_balance stdinP ds.playlist i
            ⟨(getSlot ds i).is_stdin, (getSlot ds i).out, (getSlot ds i).proc,
              (getSlot ds i).life - 1⟩ default hi
          rw [show ds.playlist.getD i default = getSlot ds i from rfl] at hb hs
          rw [if_pos (show busyP (getSlot ds i) = true by
                simp [busyP, hproc]),
              if_pos (show busyP ⟨(getSlot ds i).is_stdin, (getSlot ds i).out,
                  (getSlot ds i).proc, (getSlot ds i).life - 1⟩ = true by
                simp [busyP, hproc])] at hb
          rw [show stdinP ⟨(getSlot ds i).is_stdin, (getSlot ds i).out,
              (getSlot ds i).proc, (getSlot ds i).life - 1⟩
              = stdinP (getSlot ds i) by simp [stdinP]] at hs
          refine ⟨?_, ?_, ?_, ?_, ?_, ?_, ?_⟩
          · simpa [List.length_set] using hv.size_eq
          · exact hv.size_pos
          · exact hv.tmo_nonneg
          · have := hv.pend_eq
            dsimp only
            omega
          · intro t ht hlt
            rcases List.mem_or_eq_of_mem_set ht with h | h
            · exact hv.failed t h hlt
            · subst h
              dsimp only at hlt
              omega
          · have := hv.stdin_one
            dsimp only
            omega
          · dsimp only
            intro hpend
            have := hv.stdin_flag hpend
            omega
      next => exact hv

theorem poll_pl_from_inv (po : Nat → Option Bool) (st : Bool) (ds : DrawState)
    (i n : Nat) (hv : Inv ds) : Inv (poll_pl_from po st ds i n) := by
  induction n generalizing ds i with
  | zero => exact hv
  | succ n ih =>
    unfold poll_pl_from
    split
    · exact ih _ _ (poll_slot_inv hv)
    · exact hv

theorem poll_pl_inv (po : Nat → Option Bool) (st : Bool) {ds : DrawState}
    (hv : Inv ds) : Inv (poll_pl po st ds) :=
  poll_pl_from_inv po st ds 0 ds.pl_size hv

theorem fill_loop_inv (oks : Nat → Bool) (ds : DrawState) (i n : Nat)
    (hv : Inv ds) (hi : i < ds.pl_size) : Inv (fill_loop oks ds i n) := by
  induction n generalizing ds i with
  | zero => exact hv
  | succ n ih =>
    unfold fill_loop
    dsimp only
    have hlen : i < ds.playlist.length := hv.size_eq ▸ hi
    have hv' : Inv (try_dispatch (oks i) ds i).1 := try_dispatch_inv hv hlen
    split
    · refine ih _ _ hv' (Nat.mod_lt _ ?_)
      have h1 := (try_dispatch_pres (oks i) ds i).1.1
      have h2 := hv.size_pos
      omega
    · exact hv'

theorem set_playlist_pos_inv (po : Nat → Option Bool) (oks : Nat → Bool)
    (ds : DrawState) (i : Int) (hv : Inv ds) :
    Inv (set_playlist_pos po oks ds i).1 := by
  unfold set_playlist_pos
  dsimp only
  have hv1 : Inv (poll_pl po false ds) := poll_pl_inv po false hv
  split
  case h_1 => exact hv1
  case h_2 j heq =>
    have hj : j.toNat < (poll_pl po false ds).pl_size := by
      have hpos := hv1.size_pos
      split_ifs at heq
      all_goals simp only [Option.some.injEq] at heq
      all_goals subst heq
      all_goals omega
    exact fill_loop_inv oks _ _ _ (inv_pl_ind j.toNat hv1) hj

theorem stepframe_eq (po : Nat → Option Bool) (oks : Nat → Bool) (tag : Bool)
    (ds : DrawState) :
    stepframe po oks tag ds = if tag then poll_pl po true ds else ds := by
  unfold stepframe
  cases tag with
  | false =>
    simp only [Bool.false_eq_true, if_false]
    split
    next h1 =>
      split
      next h2 => omega
      next => rfl
    next => rfl
  | true =>
    simp only [if_true]
    split
    next h1 =>
      split
      next h2 => omega
      next => rfl
    next => rfl

theorem step_next_inv (po : Nat → Option Bool) (oks : Nat → Bool)
    {ds : DrawState} (hv : Inv ds) : Inv (step_next po oks ds) := by
  unfold step_next
  exact inv_cur _ (set_playlist_pos_inv po oks ds _ hv)

theorem step_prev_inv (po : Nat → Option Bool) (oks : Nat → Bool)
    {ds : DrawState} (hv : Inv ds) : Inv (step_prev po oks ds) := by
  unfold step_prev
  exact inv_cur _ (set_playlist_pos_inv po oks ds _ hv)

theorem stepframe_inv (po : Nat → Option Bool) (oks : Nat → Bool) (tag : Bool)
    {ds : DrawState} (hv : Inv ds) : Inv (stepframe po oks tag ds) := by
  rw [stepframe_eq]
  split
  · exact poll_pl_inv po true hv
  · exact hv

theorem step_inv {a b : DrawState} (hv : Inv a) (hs : Step a b) : Inv b := by
  cases hs with
  | poll po st ds => exact poll_pl_inv po st hv
  | next po oks ds => exact step_next_inv po oks hv
  | prev po oks ds => exact step_prev_inv po oks hv
  | tick po oks tag ds => exact stepframe_inv po oks tag hv

theorem mkState_inv (files : List Bool) (lim tmo itimer : Int) (lp : Bool)
    (hne : files ≠ []) (htmo : 0 ≤ tmo) :
    Inv (mkState files lim tmo itimer lp) := by
  have hbusy : List.countP (busyP ∘ init_slot) files = 0 :=
    List.countP_eq_zero.2 (by intro a _; simp [busyP, init_slot, Function.comp])
  have hstdin : List.countP (stdinP ∘ init_slot) files = 0 :=
    List.countP_eq_zero.2 (by
      intro a _; simp [stdinP, init_slot, Function.comp])
  refine ⟨?_, ?_, ?_, ?_, ?_, ?_, ?_⟩
  · simp [mkState]
  · simpa [mkState, List.length_pos] using hne
  · exact htmo
  · simp [mkState, List.countP_map, hbusy]
  · intro s hs hlt
    simp only [mkState, List.mem_map] at hs
    obtain ⟨b, -, rfl⟩ := hs
    simp [init_slot] at hlt
  · simp [mkState, List.countP_map, hstdin]
  · intro
    simp [mkState, List.countP_map, hstdin]

theorem init_state_inv (po : Nat → Option Bool) (oks : Nat → Bool)
    (files : List Bool) (lim tmo itimer : Int) (lp : Bool)
    (hne : files ≠ []) (htmo : 0 ≤ tmo) :
    Inv (init_state po oks files lim tmo itimer lp) := by
  unfold init_state
  exact inv_cur _
    (set_playlist_pos_inv po oks _ 0 (mkState_inv files lim tmo itimer lp hne htmo))

theorem reach_inv {ds : DrawState} (h : Reach ds) : Inv ds := by
  induction h with
  | init po oks files lim tmo itimer lp hne htmo =>
    exact init_state_inv po oks files lim tmo itimer lp hne htmo
  | step _ hstep ih => exact step_inv ih hstep

/-! ## Permanently failed slots are frozen -/

theorem getSlot_poll_slot_ne {res : Option Bool} {st : Bool} {ds : DrawState}
    {i j : Nat} (h : i ≠ j) : getSlot (poll_slot res st ds i) j = getSlot ds j := by
  unfold poll_slot
  dsimp only
  split
  case isFalse => rfl
  case isTrue =>
    cases res with
    | some rdy => exact getD_set_ne _ _ _ h
    | none =>
      dsimp only
      split
      · split <;> exact getD_set_ne _ _ _ h
      · rfl

theorem getSlot_poll_slot_noproc {res : Option Bool} {st : Bool}
    {ds : DrawState} {i j : Nat} (h : (getSlot ds j).proc = false) :
    getSlot (poll_slot res st ds i) j = getSlot ds j := by
  by_cases hij : i = j
  · subst hij
    unfold poll_slot
    dsimp only
    rw [h]
    simp
  · exact getSlot_poll_slot_ne hij

theorem getSlot_try_dispatch_ne {ok : Bool} {ds : DrawState} {i j : Nat}
    (h : i ≠ j) : getSlot (try_dispatch ok ds i).1 j = getSlot ds j := by
  unfold try_dispatch
  dsimp only
  split
  · split
    · rfl
    · split
      · exact getD_set_ne _ _ _ h
      · rfl
  · rfl

theorem getSlot_try_dispatch_dead {ok : Bool} {ds : DrawState} {i j : Nat}
    (hl : (getSlot ds j).life < 0) (hp : (getSlot ds j).proc = false) :
    getSlot (try_dispatch ok ds i).1 j = getSlot ds j := by
  by_cases hij : i = j
  · subst hij
    unfold try_dispatch
    dsimp only
    split
    next hg =>
      exfalso
      simp only [Bool.or_eq_true, Bool.and_eq_true, Option.isNone_iff_eq_none,
        decide_eq_true_eq] at hg
      rcases hg with ⟨-, hge⟩ | ⟨-, hgp⟩
      · omega
      · rw [hp] at hgp
        exact absurd hgp (by simp)
    next => rfl
  · exact getSlot_try_dispatch_ne hij

theorem getSlot_poll_pl_from_noproc (po : Nat → Option Bool) (st : Bool)
    (ds : DrawState) (i n j : Nat) (h : (getSlot ds j).proc = false) :
    getSlot (poll_pl_from po st ds i n) j = getSlot ds j := by
  induction n generalizing ds i with
  | zero => rfl
  | succ n ih =>
    unfold poll_pl_from
    split
    · rw [ih _ _ (by rw [getSlot_poll_slot_noproc h]; exact h)]
      exact getSlot_poll_slot_noproc h
    · rfl

theorem getSlot_poll_pl_noproc (po : Nat → Option Bool) (st : Bool)
    (ds : DrawState) (j : Nat) (h : (getSlot ds j).proc = false) :
    getSlot (poll_pl po st ds) j = getSlot ds j :=
  getSlot_poll_pl_from_noproc po st ds 0 ds.pl_size j h

theorem getSlot_fill_loop_dead (oks : Nat → Bool) (ds : DrawState)
    (i n j : Nat) (hl : (getSlot ds j).life < 0)
    (hp : (getSlot ds j).proc = false) :
    getSlot (fill_loop oks ds i n) j = getSlot ds j := by
  induction n generalizing ds i with
  | zero => rfl
  | succ n ih =>
    unfold fill_loop
    dsimp only
    have hd := @getSlot_try_dispatch_dead (oks i) ds i j hl hp
    split
    · rw [ih _ _ (by rw [hd]; exact hl) (by rw [hd]; exact hp)]
      exact hd
    · exact hd

theorem getSlot_set_playlist_pos_dead (po : Nat → Option Bool)
    (oks : Nat → Bool) (ds : DrawState) (i : Int) (j : Nat)
    (hl : (getSlot ds j).life < 0) (hp : (getSlot ds j).proc = false) :
    getSlot (set_playlist_pos po oks ds i).1 j = getSlot ds j := by
  unfold set_playlist_pos
  dsimp only
  have h1 := getSlot_poll_pl_noproc po false ds j hp
  split
  case h_1 => exact h1
  case h_2 jj heq =>
    have hl1 : (getSlot { poll_pl po false ds with pl_ind := jj.toNat } j).life
        < 0 := by
      rw [show getSlot { poll_pl po false ds with pl_ind := jj.toNat } j
          = getSlot (poll_pl po false ds) j from rfl, h1]
      exact hl
    have hp1 : (getSlot { poll_pl po false ds with pl_ind := jj.toNat } j).proc
        = false := by
      rw [show getSlot { poll_pl po false ds with pl_ind := jj.toNat } j
          = getSlot (poll_pl po false ds) j from rfl, h1]
      exact hp
    rw [getSlot_fill_loop_dead oks _ _ _ j hl1 hp1]
    exact h1

theorem getSlot_step_dead {a b : DrawState} (hs : Step a b) (j : Nat)
    (hl : (getSlot a j).life < 0) (hp : (getSlot a j).proc = false) :
    getSlot b j = getSlot a j := by
  cases hs with
  | poll po st => exact getSlot_poll_pl_noproc po st a j hp
  | next po oks =>
    exact getSlot_set_playlist_pos_dead po oks a _ j hl hp
  | prev po oks =>
    exact getSlot_set_playlist_pos_dead po oks a _ j hl hp
  | tick po oks tag =>
    rw [stepframe_eq]
    split
    · exact getSlot_poll_pl_noproc po true a j hp
    · rfl

theorem getSlot_steps_dead {a b : DrawState} (hs : Steps a b) (j : Nat)
    (hl : (getSlot a j).life < 0) (hp : (getSlot a j).proc = false) :
    getSlot b j = getSlot a j := by
  induction hs with
  | refl => rfl
  | tail hab hbc ih =>
    rw [getSlot_step_dead hbc j (by rw [ih]; exact hl) (by rw [ih]; exact hp)]
    exact ih

/-! ## Polls in which no worker completes -/

theorem poll_slot_none_wnd (st : Bool) (ds : DrawState) (i : Nat) :
    (poll_slot none st ds i).wnd_pending = ds.wnd_pending := by
  unfold poll_slot
  dsimp only
  split
  · split
    · split <;> rfl
    · rfl
  · rfl

theorem poll_slot_none_stdin (st : Bool) (ds : DrawState) (i : Nat) :
    (poll_slot none st ds i).stdin_pending = ds.stdin_pending := by
  unfold poll_slot
  dsimp only
  split
  · split
    · split <;> rfl
    · rfl
  · rfl

theorem poll_pl_from_none_wnd (st : Bool) (ds : DrawState) (i n : Nat) :
    (poll_pl_from (fun _ => none) st ds i n).wnd_pending = ds.wnd_pending := by
  induction n generalizing ds i with
  | zero => rfl
  | succ n ih =>
    unfold poll_pl_from
    split
    · rw [ih]
      exact poll_slot_none_wnd st ds i
    · rfl

theorem poll_pl_from_none_stdin (st : Bool) (ds : DrawState) (i n : Nat) :
    (poll_pl_from (fun _ => none) st ds i n).stdin_pending
      = ds.stdin_pending := by
  induction n generalizing ds i with
  | zero => rfl
  | succ n ih =>
    unfold poll_pl_from
    split
    · rw [ih]
      exact poll_slot_none_stdin st ds i
    · rfl

theorem poll_pl_none_stdin (st : Bool) (ds : DrawState) :
    (poll_pl (fun _ => none) st ds).stdin_pending = ds.stdin_pending :=
  poll_pl_from_none_stdin st ds 0 ds.pl_size

theorem getSlot_poll_slot_none_self (st : Bool) {ds : DrawState} {i : Nat}
    (h : i < ds.playlist.length) :
    getSlot (poll_slot none st ds i) i = tick_slot st (getSlot ds i) := by
  unfold poll_slot tick_slot
  dsimp only
  by_cases h1 : ((getSlot ds i).out.isSome && (getSlot ds i).proc) = true
  · rw [if_pos h1, if_pos h1]
    by_cases h2 : (st && decide (0 < (getSlot ds i).life)) = true
    · rw [if_pos h2, if_pos h2]
      by_cases h3 : (decide ((getSlot ds i).life - 1 = 0)
          && !(outReady (getSlot ds i).out)) = true
      · rw [if_pos h3, if_pos h3]
        exact getD_set_self _ _ _ _ h
      · rw [if_neg h3, if_neg h3]
        exact getD_set_self _ _ _ _ h
    · rw [if_neg h2, if_neg h2]
  · rw [if_neg h1, if_neg h1]

theorem getSlot_poll_pl_from_lt (po : Nat → Option Bool) (st : Bool)
    (ds : DrawState) (i n j : Nat) (hj : j < i) :
    getSlot (poll_pl_from po st ds i n) j = getSlot ds j := by
  induction n generalizing ds i with
  | zero => rfl
  | succ n ih =>
    unfold poll_pl_from
    split
    · rw [ih _ _ (by omega)]
      exact getSlot_poll_slot_ne (by omega)
    · rfl

theorem getSlot_poll_pl_from_none_hit (st : Bool) :
    ∀ (n : Nat) (ds : DrawState) (i j : Nat), i ≤ j → j < i + n →
    j < ds.pl_size → ds.pl_size = ds.playlist.length → ds.wnd_pending ≠ 0 →
    getSlot (poll_pl_from (fun _ => none) st ds i n) j
      = tick_slot st (getSlot ds j) := by
  intro n
  induction n with
  | zero => intro ds i j h1 h2; omega
  | succ n ih =>
    intro ds i j h1 h2 h3 h4 h5
    unfold poll_pl_from
    rw [if_pos ⟨by omega, h5⟩]
    by_cases hij : i = j
    · subst hij
      rw [getSlot_poll_pl_from_lt _ _ _ _ _ _ (by omega)]
      exact getSlot_poll_slot_none_self st (h4 ▸ h3)
    · have hpres := poll_slot_pres none st ds i
      rw [ih (poll_slot none st ds i) (i + 1) j (by omega) (by omega)
          (by rw [hpres.1.1]; exact h3)
          (by rw [hpres.1.1, hpres.1.2.1]; exact h4)
          (by rw [poll_slot_none_wnd]; exact h5),
        getSlot_poll_slot_ne hij]

theorem getSlot_poll_pl_none (st : Bool) {ds : DrawState} (j : Nat)
    (h3 : j < ds.pl_size) (h4 : ds.pl_size = ds.playlist.length)
    (h5 : ds.wnd_pending ≠ 0) :
    getSlot (poll_pl (fun _ => none) st ds) j = tick_slot st (getSlot ds j) :=
  getSlot_poll_pl_from_none_hit st ds.pl_size ds 0 j (Nat.zero_le j)
    (by omega) h3 h4 h5

/-! ## Resize negotiation bounds -/

theorem resize_negotiate_attempts (accept : Nat → Nat → Bool) :
    ∀ (dh dw : Nat),
    (resize_negotiate accept dw dh).attempts ≤ Nat.log2 dh + 1 := by
  intro dh
  induction dh using Nat.strong_induction_on with
  | _ dh ih =>
    intro dw
    rw [resize_negotiate]
    split
    next h =>
      dsimp only
      by_cases h1 : dh = 1
      · subst h1
        rw [show (1 : Nat) >>> 1 = 0 from rfl, resize_negotiate]
        simp
      · have h2 : 2 ≤ dh := by
          have := h.1
          omega
        have hlog : Nat.log2 dh = Nat.log2 (dh / 2) + 1 := by
          rw [Nat.log2]
          simp [h2]
        have hrec := ih (dh >>> 1)
          (by
            rw [Nat.shiftRight_one]
            exact Nat.div_lt_self (by omega) one_lt_two)
          (dw >>> 1)
        simp only [Nat.shiftRight_one] at hrec ⊢
        omega
    next h =>
      dsimp only
      split <;> omega

theorem resize_negotiate_stop (accept : Nat → Nat → Bool) :
    ∀ (dh dw : Nat),
    (resize_negotiate accept dw dh).dh = 0 ∨
      accept (resize_negotiate accept dw dh).dw
        (resize_negotiate accept dw dh).dh = true := by
  intro dh
  induction dh using Nat.strong_induction_on with
  | _ dh ih =>
    intro dw
    rw [resize_negotiate]
    split
    next h =>
      dsimp only
      exact ih (dh >>> 1)
        (by
          rw [Nat.shiftRight_one]
          exact Nat.div_lt_self (Nat.pos_of_ne_zero h.1) one_lt_two)
        (dw >>> 1)
    next h =>
      dsimp only
      by_cases h0 : dh = 0
      · exact Or.inl h0
      · right
        rcases Bool.eq_false_or_eq_true (accept dw dh) with ht | hf
        · exact ht
        · exact absurd ⟨h0, h0, hf⟩ h

/-! ## Claims -/

/-- C1, counterexample to the claim as stated: in a single-slot session with
looping disabled and the active index on the last slot, NEXT is not a no-op
on the current-slot reference — `set_playlist_pos` returns NULL, `step_next`
stores it into `ds->cur`, and the interactive loop guard
`while (ds.cur && ...)` becomes false, terminating the loop. -/
theorem c1_claim_cex :
    exC1.cur = some 0 ∧ exC1.loop = false ∧
    exC1.pl_ind + 1 = exC1.pl_size ∧
    (step_next po0 okNone exC1).cur = none ∧
    loop_continues (step_next po0 okNone exC1) = false := by decide

/-- C1, amended: advancing past the last slot with looping disabled leaves
the active index and the playlist slots exactly as the initial non-ticking
poll reap leaves them (in particular the active index and every decoded
output are unchanged), but the current-slot reference is set to NULL, which
terminates the interactive loop. -/
theorem c1_next_past_end_no_loop (po : Nat → Option Bool) (oks : Nat → Bool)
    (ds : DrawState) (hl : ds.loop = false)
    (hlast : (ds.pl_size : Int) ≤ (ds.pl_ind : Int) + 1) :
    step_next po oks ds = { poll_pl po false ds with cur := none } := by
  unfold step_next set_playlist_pos
  dsimp only
  have hpres := poll_pl_pres po false ds
  have hsz : (poll_pl po false ds).pl_size = ds.pl_size := hpres.1.1
  have hlp : (poll_pl po false ds).loop = false := by
    rw [hpres.1.2.2.2.2.1]
    exact hl
  rw [if_neg (show ¬((ds.pl_ind : Int) + 1 < 0) from by omega)]
  rw [if_pos (show ((poll_pl po false ds).pl_size : Int)
      ≤ (ds.pl_ind : Int) + 1 from by rw [hsz]; exact hlast)]
  rw [if_neg (show ¬((poll_pl po false ds).loop = true) from by
    rw [hlp]; exact Bool.false_ne_true)]

/-- C1 witness: the amended statement applied to the concrete single-slot
session. -/
theorem c1_next_past_end_no_loop_witness :
    step_next po0 okNone exC1 = { poll_pl po0 false exC1 with cur := none } :=
  c1_next_past_end_no_loop po0 okNone exC1 (by decide) (by decide)

/-- C2, counterexample to the claim as stated: a reachable session state
(two slots, prefetch window limit 1, NEXT issued while slot 0's worker is
still outstanding) in which the outstanding-worker count exceeds the window
limit — `set_playlist_pos` always dispatches the requested slot even when
the window is already saturated. -/
theorem c2_claim_cex : ∃ ds, Reach ds ∧ ds.wnd_lim < ds.wnd_pending :=
  ⟨exC2,
    Reach.step
      (Reach.init po0 okAll [false, false] 1 5 0 false (by decide) (by decide))
      (Step.next po0 okAll exC2a),
    by decide⟩

/-- C2, amended: in every reachable session state the outstanding-worker
count is non-negative and bounded by the playlist size (each slot is
dispatched at most once over the whole run); it is not bounded by the
prefetch window limit, which the forced dispatch of the requested slot can
exceed. -/
theorem c2_pending_le_playlist {ds : DrawState} (h : Reach ds) :
    0 ≤ ds.wnd_pending ∧ ds.wnd_pending ≤ (ds.pl_size : Int) := by
  have hv := reach_inv h
  have hc := hv.pend_eq
  have hl : ds.playlist.countP busyP ≤ ds.playlist.length :=
    List.countP_le_length _
  have hs := hv.size_eq
  omega

/-- C2 witness: the amended bound at the concrete reachable state of the
counterexample. -/
theorem c2_pending_le_playlist_witness :
    0 ≤ exC2.wnd_pending ∧ exC2.wnd_pending ≤ (exC2.pl_size : Int) :=
  c2_pending_le_playlist
    (Reach.step
      (Reach.init po0 okAll [false, false] 1 5 0 false (by decide) (by decide))
      (Step.next po0 okAll exC2a))

/-- C3: the auto-advance logic of the STEPFRAME handler is dead code — for
every state and every step-tick event, the handler leaves the step counter,
the active index and the current-slot reference unchanged (the advance is
guarded by `step_timer == 0` nested inside `step_timer > 0`, and nothing
ever decrements the counter), contradicting the claimed
decrement/advance/reset behaviour. -/
theorem c3_stepframe_never_advances (po : Nat → Option Bool)
    (oks : Nat → Bool) (tag : Bool) (ds : DrawState) :
    (stepframe po oks tag ds).step_timer = ds.step_timer ∧
    (stepframe po oks tag ds).pl_ind = ds.pl_ind ∧
    (stepframe po oks tag ds).cur = ds.cur := by
  rw [stepframe_eq]
  split
  · have hp := poll_pl_pres po true ds
    exact ⟨hp.2.1, hp.2.2.2, hp.2.2.1⟩
  · exact ⟨rfl, rfl, rfl⟩

/-- C4: evaluating the absent-input branch of `blit` at a 2×1 destination
with pad color 7 — the pixel at row 0, column 1 (inside the 0..width range
the claim quantifies over) is left untouched, because the C pad-fill bounds
the column loop by `dst->h` instead of `dst->w`; the frame is still
signaled. -/
theorem c4_pad_fill_misses_columns :
    fbC4.w = 2 ∧ fbC4.h = 1 ∧ cfgPad7.pad_col = 7 ∧
    (blit rsId fbC4 none cfgPad7).vid 0 = 7 ∧
    (blit rsId fbC4 none cfgPad7).vid 1 = 0 ∧
    (blit rsId fbC4 none cfgPad7).signaled = true := by decide

/-- C5, counterexample to the claim as stated: a ready decoded buffer whose
declared length fails the corruption guard makes `blit` return without
signaling the frame (the guard is a bare `return`, before the `done:`
label). -/
theorem c5_claim_cex :
    srcCorrupt.ready = true ∧
    srcCorrupt.buf_sz ≠ srcCorrupt.w * srcCorrupt.h * 4 ∧
    (blit rsId fbSq (some srcCorrupt) cfgPad7).signaled = false := by decide

/-- C5, amended: a compositor invocation delivers the frame-updated signal
before returning in every case except exactly one — a ready decoded buffer
rejected by the corruption guard, in which case `blit` returns without
signaling. -/
theorem c5_signal_iff_not_corrupt (rs : Resampler) (dst : Fb)
    (src : Option ImgData) (st : BlitCfg) :
    (blit rs dst src st).signaled = false ↔
      ∃ s, src = some s ∧ s.ready = true ∧ s.buf_sz ≠ s.w * s.h * 4 := by
  cases src with
  | none =>
    unfold blit
    dsimp only
    simp
  | some s =>
    unfold blit
    dsimp only
    split
    next hr =>
      dsimp only
      constructor
      · intro hh
        exact absurd hh (by simp)
      · rintro ⟨s', hs', hrt, -⟩
        obtain rfl : s = s' := by injection hs'
        rw [hr] at hrt
        exact absurd hrt (by simp)
    next hr =>
      have hrt : s.ready = true := by
        cases hrr : s.ready
        · exact absurd hrr hr
        · rfl
      split
      next hcor =>
        dsimp only
        constructor
        · intro _
          exact ⟨s, rfl, hrt, hcor⟩
        · intro _
          rfl
      next hcor =>
        rw [not_ne_iff] at hcor
        split
        all_goals dsimp only
        all_goals constructor
        all_goals intro hh
        · exact absurd hh (by simp)
        · obtain ⟨s', hs', -, hbs⟩ := hh
          obtain rfl : s = s' := by injection hs'
          exact absurd hcor hbs
        · exact absurd hh (by simp)
        · obtain ⟨s', hs', -, hbs⟩ := hh
          obtain rfl : s = s' := by injection hs'
          exact absurd hcor hbs

/-- C6: a ready decoded buffer whose declared length differs from
width·height·4 is rejected by the corruption guard: `blit` leaves every
destination pixel unchanged and reads no byte of the source buffer at all
(in particular none at or past the declared length). -/
theorem c6_corrupt_buffer_untouched (rs : Resampler) (dst : Fb) (s : ImgData)
    (st : BlitCfg) (hr : s.ready = true) (hc : s.buf_sz ≠ s.w * s.h * 4) :
    (blit rs dst (some s) st).vid = dst.vid ∧
    (blit rs dst (some s) st).reads = [] := by
  unfold blit
  dsimp only
  rw [if_neg (by simp [hr]), if_pos hc]
  exact ⟨rfl, rfl⟩

/-- C6 witness: the guard at a concrete ready 2×2 buffer declaring 15 bytes
instead of 16. -/
theorem c6_corrupt_buffer_untouched_witness :
    (blit rsId fbSq (some srcCorrupt) cfgPad7).vid = fbSq.vid ∧
    (blit rsId fbSq (some srcCorrupt) cfgPad7).reads = [] :=
  c6_corrupt_buffer_untouched rsId fbSq srcCorrupt cfgPad7 (by decide)
    (by decide)

/-- C7: for positive native dimensions the halve-and-retry resize loop (a
total function, hence terminating) stops either with an accepted size or
with the tested dimension degenerated to zero, and the number of retries
(resize attempts beyond the first) is at most log2 of the larger native
dimension. -/
theorem c7_resize_negotiation_terminates (accept : Nat → Nat → Bool)
    (dw dh : Nat) (_hw : 0 < dw) (_hh : 0 < dh) :
    ((resize_negotiate accept dw dh).dh = 0 ∨
      accept (resize_negotiate accept dw dh).dw
        (resize_negotiate accept dw dh).dh = true) ∧
    (resize_negotiate accept dw dh).attempts - 1 ≤ Nat.log2 (max dw dh) := by
  refine ⟨resize_negotiate_stop accept dh dw, ?_⟩
  have h1 := resize_negotiate_attempts accept dh dw
  have h2 : Nat.log2 dh ≤ Nat.log2 (max dw dh) := by
    rw [Nat.log2_eq_log_two, Nat.log2_eq_log_two]
    exact Nat.log_mono_right (le_max_right _ _)
  omega

/-- C7 witness: a 7×5 image against a display session that rejects every
size. -/
theorem c7_resize_negotiation_witness :
    ((resize_negotiate (fun _ _ => false) 7 5).dh = 0 ∨
      (fun _ _ => false) (resize_negotiate (fun _ _ => false) 7 5).dw
        (resize_negotiate (fun _ _ => false) 7 5).dh = true) ∧
    (resize_negotiate (fun _ _ => false) 7 5).attempts - 1
      ≤ Nat.log2 (max 7 5) :=
  c7_resize_negotiation_terminates (fun _ _ => false) 7 5 (by decide)
    (by decide)

/-- C8: in every reachable session state, a slot marked permanently failed
(`life = -1`) is frozen by every subsequent sequence of dispatch/poll/advance
operations: the slot is never touched again — in particular no decode worker
is ever spawned for it (`proc` stays false). -/
theorem c8_failed_slot_never_redispatched {ds ds' : DrawState} (i : Nat)
    (hr : Reach ds) (hs : Steps ds ds')
    (hfail : (getSlot ds i).life = -1) :
    getSlot ds' i = getSlot ds i ∧ (getSlot ds' i).proc = false := by
  have hv := reach_inv hr
  have hlen : i < ds.playlist.length := by
    by_contra hc
    push_neg at hc
    rw [getSlot, List.getD_eq_default _ _ hc] at hfail
    exact absurd hfail (by decide)
  have hproc : (getSlot ds i).proc = false :=
    hv.failed _ (getD_mem hlen) (by omega)
  have heq := getSlot_steps_dead hs i (by omega) hproc
  exact ⟨heq, by rw [heq]; exact hproc⟩

/-- C8 witness: a single-slot session whose worker timed out after one tick;
one further NEXT leaves the slot failed and workerless. -/
theorem c8_failed_slot_witness :
    (getSlot (step_next po0 okAll exC8) 0).life = -1 ∧
    (getSlot (step_next po0 okAll exC8) 0).proc = false := by
  have h := c8_failed_slot_never_redispatched 0
    (Reach.step
      (Reach.init po0 okAll [false] 5 1 0 false (by decide) (by decide))
      (Step.poll po0 true exC8a))
    (Steps.tail (Steps.refl exC8) (Step.next po0 okAll exC8))
    (by decide)
  refine ⟨?_, h.2⟩
  rw [h.1]
  decide

/-- C9: in every reachable session state at most one outstanding worker is
bound to the shared input stream; while one is outstanding, `try_dispatch`
of any shared-stream slot is refused without changing the state; and a poll
sweep in which no worker completes leaves the shared-stream binding
(`stdin_pending`) untouched — the binding is released only by a completing
poll. -/
theorem c9_single_stdin_worker {ds : DrawState} (hr : Reach ds) :
    ds.playlist.countP stdinP ≤ 1 ∧
    (∀ (i : Nat) (ok : Bool), (getSlot ds i).is_stdin = true →
      0 < ds.playlist.countP stdinP → try_dispatch ok ds i = (ds, false)) ∧
    (∀ st : Bool,
      (poll_pl (fun _ => none) st ds).stdin_pending = ds.stdin_pending) := by
  have hv := reach_inv hr
  refine ⟨hv.stdin_one, ?_, fun st => poll_pl_none_stdin st ds⟩
  intro i ok hstd hcount
  have hpend : ds.stdin_pending = true := by
    cases hp : ds.stdin_pending
    · rw [hv.stdin_flag hp] at hcount
      exact absurd hcount (by omega)
    · rfl
  unfold try_dispatch
  dsimp only
  split
  · rw [if_pos (by simp [hstd, hpend])]
  · rfl

/-- C9 witness: the session whose single stdin slot was dispatched at
startup. -/
theorem c9_single_stdin_worker_witness :
    exC9.playlist.countP stdinP ≤ 1 ∧
    try_dispatch true exC9 0 = (exC9, false) := by
  have h := c9_single_stdin_worker
    (Reach.init po0 okAll [true] 5 5 0 false (by decide) (by decide))
  exact ⟨h.1, h.2.1 0 true (by decide) (by decide)⟩

/-- C10: a ticking poll that ages an outstanding, not-ready worker from one
remaining tick to zero resets the worker and marks the slot permanently
failed while leaving `wnd_pending` unchanged (the count is decremented only
by completions); afterwards every sequence of dispatch/poll/advance
operations keeps the slot failed and workerless, so the unit of the
prefetch window it consumed is never returned. -/
theorem c10_timeout_keeps_window_unit (ds : DrawState) (i : Nat)
    (h1 : i < ds.pl_size) (h2 : ds.pl_size = ds.playlist.length)
    (h3 : ds.wnd_pending ≠ 0) (h4 : (getSlot ds i).proc = true)
    (h5 : (getSlot ds i).out = some ⟨false⟩) (h6 : (getSlot ds i).life = 1) :
    (poll_pl (fun _ => none) true ds).wnd_pending = ds.wnd_pending ∧
    (getSlot (poll_pl (fun _ => none) true ds) i).life = -1 ∧
    (getSlot (poll_pl (fun _ => none) true ds) i).proc = false ∧
    ∀ ds'' : DrawState, Steps (poll_pl (fun _ => none) true ds) ds'' →
      (getSlot ds'' i).life = -1 ∧ (getSlot ds'' i).proc = false := by
  have hwnd : (poll_pl (fun _ => none) true ds).wnd_pending
      = ds.wnd_pending := poll_pl_from_none_wnd true ds 0 ds.pl_size
  have hslot := getSlot_poll_pl_none true i h1 h2 h3
  have htick : tick_slot true (getSlot ds i)
      = ⟨(getSlot ds i).is_stdin, (getSlot ds i).out, false, -1⟩ := by
    unfold tick_slot
    rw [if_pos (by simp [h4, h5]), if_pos (by simp [h6]),
      if_pos (by simp [h5, h6, outReady])]
  refine ⟨hwnd, by rw [hslot, htick], by rw [hslot, htick], ?_⟩
  intro ds'' hsteps
  have heq := getSlot_steps_dead hsteps i
    (by rw [hslot, htick]; exact (show (-1 : Int) < 0 by decide))
    (by rw [hslot, htick])
  rw [heq, hslot, htick]
  exact ⟨rfl, rfl⟩

/-- C10 witness: the one-slot state with an outstanding worker one tick from
timeout and `wnd_pending = 1`. -/
theorem c10_timeout_witness :
    (poll_pl (fun _ => none) true exC10).wnd_pending = 1 ∧
    (getSlot (poll_pl (fun _ => none) true exC10) 0).life = -1 ∧
    (getSlot (poll_pl (fun _ => none) true exC10) 0).proc = false := by
  have h := c10_timeout_keeps_window_unit exC10 0 (by decide) (by decide)
    (by decide) (by decide) (by decide) (by decide)
  refine ⟨?_, h.2.1, h.2.2.1⟩
  rw [h.1]
  decide

end Aloadimage
